import Mathlib

/-!
Shallow embedding of `src/controllers/hoots.js` — the Express route handlers
for the "hoot" (post) resource and its embedded comments.

The persistence collaborator (Mongoose) is modelled as a list of documents:
`findById` is first-match lookup by id, `findByIdAndUpdate` applies the
request body's present fields to the stored document, `save` after an
in-place mutation of the embedded comment sequence writes the whole parent
document back, `populate` replaces the stored author id by the user record.

HTTP outcomes are modelled by `Except Err`: 403 is `Err.forbidden`, 500
(the catch-all error handler, which fires both for persistence errors and
for null dereferences such as `hoot.author` when `findById` returned null)
is `Err.serverError`.  `Err.notFound` (404) is in the error vocabulary of
the specification; whether any handler produces it is settled below.
Every handler returns its response together with the resulting store, so
"no mutation occurred" is the store component being unchanged.
-/

namespace Hoots

abbrev UserId := Nat
abbrev HootId := Nat
abbrev CommentId := Nat

/-- Modelled from the spec: the User entity (`../models/user.js` is not part
of the controller source).  An opaque identity with at least an `id` and
profile data (`username`). -/
structure User where
  id : UserId
  username : String
deriving Repr, DecidableEq

/-- Modelled from the spec: the embedded Comment sub-document of the hoot
schema (`../models/hoot.js` is not part of the controller source): `id`
assigned when appended, `author` a User reference, `text`, `createdAt`. -/
structure Comment where
  id : CommentId
  author : UserId
  text : String
  createdAt : Nat
deriving Repr, DecidableEq

/-- Modelled from the spec: the Hoot (Post) document (`../models/hoot.js` is
not part of the controller source): `id`, `author` reference, `title`,
`text`, `createdAt`, and the ordered embedded `comments` sequence. -/
structure Hoot where
  id : HootId
  author : UserId
  title : String
  text : String
  createdAt : Nat
  comments : List Comment
deriving Repr, DecidableEq

/-- A request body (`req.body`) for creating or updating a hoot: each field
optionally present; `findByIdAndUpdate` / `Hoot.create` apply the present
fields. -/
structure HootContent where
  title : Option String := none
  text : Option String := none
  author : Option UserId := none
deriving Repr, DecidableEq

/-- A hoot as serialised in a response: the `author` field holds a populated
user record (or `none` when the referenced user does not exist). -/
structure HootView where
  id : HootId
  author : Option User
  title : String
  text : String
  createdAt : Nat
  comments : List Comment
deriving Repr, DecidableEq

/-- A comment as serialised in a response, with `author` populated. -/
structure CommentView where
  id : CommentId
  author : Option User
  text : String
  createdAt : Nat
deriving Repr, DecidableEq

/-- Response outcomes other than success: 403 (`forbidden`), 404
(`notFound`, from the specification's error vocabulary), 500
(`serverError`, the catch-all handler). -/
inductive Err where
  | forbidden
  | notFound
  | serverError
deriving Repr, DecidableEq

/-- `Hoot.findById(hootId)`: first document whose id matches, else null. -/
def findHoot (db : List Hoot) (hootId : HootId) : Option Hoot :=
  db.find? (fun h => h.id = hootId)

/-- `.populate('author')`: replace the stored author id by the user record. -/
def populate (users : List User) (h : Hoot) : HootView :=
  { id := h.id
    author := users.find? (fun u => u.id = h.author)
    title := h.title
    text := h.text
    createdAt := h.createdAt
    comments := h.comments }

/-- `hoot._doc.author = req.user`: the response object with the author field
overwritten by the caller's full user record. -/
def viewWithUser (h : Hoot) (u : User) : HootView :=
  { id := h.id
    author := some u
    title := h.title
    text := h.text
    createdAt := h.createdAt
    comments := h.comments }

/-- `findByIdAndUpdate(id, body)`: apply each field present in the body onto
the stored document (absent fields keep their stored value). -/
def applyContent (h : Hoot) (b : HootContent) : Hoot :=
  { h with
    title := b.title.getD h.title
    text := b.text.getD h.text
    author := b.author.getD h.author }

/-- Write a (mutated) document back into the store at its id. -/
def storeUpdate (db : List Hoot) (hootId : HootId) (h : Hoot) : List Hoot :=
  db.map (fun x => if x.id = hootId then h else x)

/-- `router.post('/')`: set `req.body.author = req.user._id`, create the
hoot from the body, patch the response object's author to the full caller
record, respond 201. -/
def createHoot (caller : User) (body : HootContent) (freshId : HootId)
    (now : Nat) (db : List Hoot) : HootView × List Hoot :=
  let body := { body with author := some caller.id }
  let hoot : Hoot :=
    { id := freshId
      author := body.author.getD 0
      title := body.title.getD ""
      text := body.text.getD ""
      createdAt := now
      comments := [] }
  (viewWithUser hoot caller, db ++ [hoot])

/-- `laterFirst a b` holds when `a` was created no earlier than `b`: the
order `.sort(\x7b createdAt: 'desc' \x7d)` arranges the result in. -/
def laterFirst (a b : Hoot) : Prop :=
  b.createdAt ≤ a.createdAt

instance : DecidableRel laterFirst :=
  fun a b => Nat.decLe b.createdAt a.createdAt

instance : IsTotal Hoot laterFirst :=
  ⟨fun a b => Nat.le_total b.createdAt a.createdAt⟩

instance : IsTrans Hoot laterFirst :=
  ⟨fun _ _ _ hab hbc => Nat.le_trans hbc hab⟩

/-- `Hoot.find({}).sort(\x7b createdAt: 'desc' \x7d)`. -/
def sortHoots (db : List Hoot) : List Hoot :=
  db.insertionSort laterFirst

/-- `router.get('/')`: all hoots, author populated, newest first. -/
def listHoots (users : List User) (db : List Hoot) :
    List HootView × List Hoot :=
  ((sortHoots db).map (populate users), db)

/-- `router.get('/:hootId')`: `findById(..).populate('author')`, then
respond 200 with the result — which is null when no document matched. -/
def getHoot (users : List User) (hootId : HootId) (db : List Hoot) :
    Except Err (Option HootView) × List Hoot :=
  (.ok ((findHoot db hootId).map (populate users)), db)

/-- `router.put('/:hootId')`: find the hoot (null dereference → 500 when
absent), 403 unless the stored author equals the caller, otherwise
`findByIdAndUpdate(hootId, req.body)` — note the body is applied as-is,
its `author` field included — then the response object's author is patched
to the caller's record. -/
def updateHoot (caller : User) (hootId : HootId) (body : HootContent)
    (db : List Hoot) : Except Err HootView × List Hoot :=
  match findHoot db hootId with
  | none => (.error .serverError, db)
  | some hoot =>
    if hoot.author = caller.id then
      let updated := applyContent hoot body
      (.ok (viewWithUser updated caller), storeUpdate db hootId updated)
    else
      (.error .forbidden, db)

/-- `router.delete('/:hootId')`: find the hoot (null dereference → 500 when
absent), 403 unless the stored author equals the caller, otherwise
`findByIdAndDelete` and respond with the deleted document. -/
def deleteHoot (caller : User) (hootId : HootId) (db : List Hoot) :
    Except Err Hoot × List Hoot :=
  match findHoot db hootId with
  | none => (.error .serverError, db)
  | some hoot =>
    if hoot.author = caller.id then
      (.ok hoot, db.filter (fun x => x.id ≠ hootId))
    else
      (.error .forbidden, db)

/-- `router.post('/:hootId/comments')`: set `req.body.author = req.user._id`,
find the parent (null dereference → 500 when absent), push the new comment
onto the end of `hoot.comments`, save, respond 201 with the last comment,
its author patched to the caller's record. -/
def addComment (caller : User) (hootId : HootId) (text : String)
    (freshCid : CommentId) (now : Nat) (db : List Hoot) :
    Except Err CommentView × List Hoot :=
  let newComment : Comment :=
    { id := freshCid, author := caller.id, text := text, createdAt := now }
  match findHoot db hootId with
  | none => (.error .serverError, db)
  | some hoot =>
    let hoot := { hoot with comments := hoot.comments ++ [newComment] }
    (.ok
      { id := newComment.id
        author := some caller
        text := newComment.text
        createdAt := newComment.createdAt },
      storeUpdate db hootId hoot)

/-- `hoot.comments.id(cid)` followed by `comment.text = t`: overwrite the
text of the first comment whose id matches, leaving everything else as is. -/
def setCommentText (cs : List Comment) (cid : CommentId) (t : String) :
    List Comment :=
  match cs with
  | [] => []
  | c :: rest =>
    if c.id = cid then { c with text := t } :: rest
    else c :: setCommentText rest cid t

/-- `router.put('/:hootId/comments/:commentId')`: find the parent (null
dereference → 500 when absent), look the comment up by id (null dereference
→ 500 when absent), overwrite its `text`, save the parent, respond 200 with
`\x7b message: 'Ok' \x7d`. -/
def updateComment (hootId : HootId) (cid : CommentId) (t : String)
    (db : List Hoot) : Except Err String × List Hoot :=
  match findHoot db hootId with
  | none => (.error .serverError, db)
  | some hoot =>
    match hoot.comments.find? (fun c => c.id = cid) with
    | none => (.error .serverError, db)
    | some _ =>
      (.ok "Ok",
       storeUpdate db hootId
         { hoot with comments := setCommentText hoot.comments cid t })

/-- `router.delete('/:hootId/comments/:commentId')`: find the parent (null
dereference → 500 when absent), `hoot.comments.remove(\x7b _id: cid \x7d)`
— pull every comment whose id matches, which is a no-op when none does —
save the parent, respond 200 with `\x7b message: 'Ok' \x7d`. -/
def removeComment (hootId : HootId) (cid : CommentId) (db : List Hoot) :
    Except Err String × List Hoot :=
  match findHoot db hootId with
  | none => (.error .serverError, db)
  | some hoot =>
    (.ok "Ok",
     storeUpdate db hootId
       { hoot with comments := hoot.comments.filter (fun c => c.id ≠ cid) })

/-! Concrete fixtures used by witnesses and counterexamples. -/

def alice : User := { id := 10, username := "alice" }

def bob : User := { id := 20, username := "bob" }

def post1 : Hoot :=
  { id := 1, author := 10, title := "t", text := "x", createdAt := 0,
    comments := [] }

def cmtA : Comment := { id := 1, author := 10, text := "a", createdAt := 1 }

def cmtB : Comment := { id := 2, author := 20, text := "b", createdAt := 2 }

def cmtC : Comment := { id := 3, author := 10, text := "c", createdAt := 3 }

def post2 : Hoot :=
  { id := 2, author := 10, title := "t2", text := "x2", createdAt := 5,
    comments := [cmtA, cmtB, cmtC] }

/-- C3: `router.post('/')` stores the caller as author, whatever the body's
`author` field says, and responds with the caller's record as author. -/
theorem createHoot_author_is_caller (caller : User) (body : HootContent)
    (freshId : HootId) (now : Nat) (db : List Hoot) :
    (createHoot caller body freshId now db).2 =
      db ++ [{ id := freshId
               author := caller.id
               title := body.title.getD ""
               text := body.text.getD ""
               createdAt := now
               comments := [] }] ∧
    (createHoot caller body freshId now db).1.author = some caller := by
  constructor <;> rfl

/-- C1 (the code falsifies it): with the caller equal to the stored author
(so the permission check passes) and the body carrying `author := 20`,
`findByIdAndUpdate` applies the body as-is: the stored author after the
update is 20, no longer the pre-update author 10.  Only the response object
is patched back to the caller's record. -/
theorem updateHoot_stored_author_overridden :
    post1.author = 10 ∧ alice.id = 10 ∧
    (updateHoot alice 1 { author := some 20 } [post1]).1 =
      .ok (viewWithUser { post1 with author := 20 } alice) ∧
    (findHoot (updateHoot alice 1 { author := some 20 } [post1]).2 1).map
        Hoot.author = some 20 :=
  ⟨rfl, rfl, rfl, rfl⟩

/-- C2: when the found hoot's stored author differs from the caller, both
UpdatePost and DeletePost respond 403 Forbidden and return the store
exactly as it was — no field of any post and no comment sequence changes. -/
theorem update_delete_forbidden_no_mutation (caller : User) (hootId : HootId)
    (body : HootContent) (db : List Hoot) (hoot : Hoot)
    (hfind : findHoot db hootId = some hoot)
    (hne : hoot.author ≠ caller.id) :
    updateHoot caller hootId body db = (.error .forbidden, db) ∧
    deleteHoot caller hootId db = (.error .forbidden, db) := by
  constructor
  · unfold updateHoot
    rw [hfind]
    simp [hne]
  · unfold deleteHoot
    rw [hfind]
    simp [hne]

theorem update_delete_forbidden_no_mutation_witness :
    findHoot [post1] 1 = some post1 ∧ post1.author ≠ bob.id ∧
    updateHoot bob 1 {} [post1] = (.error .forbidden, [post1]) ∧
    deleteHoot bob 1 [post1] = (.error .forbidden, [post1]) := by
  have h := update_delete_forbidden_no_mutation bob 1 {} [post1] post1 rfl
    (by decide)
  exact ⟨rfl, by decide, h.1, h.2⟩

/-- C4 counterexample: GetPost of an id that matches no post responds 200
with a null body — a success result carrying null, not a NotFound
failure. -/
theorem getHoot_missing_is_success_null :
    getHoot [] 1 [] = (.ok none, []) ∧
    (getHoot [] 1 []).1 ≠ .error .notFound :=
  ⟨rfl, fun h => Except.noConfusion h⟩

/-- C4 (amended): GetPost of a nonexistent id does not crash and does not
fail with NotFound: it succeeds with a null entity and leaves the store
unchanged. -/
theorem getHoot_missing_ok_none (users : List User) (hootId : HootId)
    (db : List Hoot) (h : findHoot db hootId = none) :
    getHoot users hootId db = (.ok none, db) := by
  simp [getHoot, h]

theorem getHoot_missing_ok_none_witness :
    findHoot [post1] 2 = none ∧ getHoot [] 2 [post1] = (.ok none, [post1]) :=
  ⟨rfl, getHoot_missing_ok_none [] 2 [post1] rfl⟩

/-- C5 (amended): AddComment on an existing post succeeds for any
authenticated caller (the post's author or not), appending exactly one
comment at the end of the sequence, authored by the caller; on a missing
parent post it fails, but with the generic 500 failure (serverError), not
NotFound. -/
theorem addComment_appends_or_fails (caller : User) (hootId : HootId)
    (t : String) (cid : CommentId) (now : Nat) (db : List Hoot) :
    (∀ hoot, findHoot db hootId = some hoot →
      addComment caller hootId t cid now db =
        (.ok { id := cid, author := some caller, text := t, createdAt := now },
         storeUpdate db hootId
           { hoot with comments :=
               hoot.comments ++
                 [{ id := cid, author := caller.id, text := t,
                    createdAt := now }] })) ∧
    (findHoot db hootId = none →
      addComment caller hootId t cid now db = (.error .serverError, db)) := by
  constructor
  · intro hoot hfind
    unfold addComment
    rw [hfind]
  · intro h
    unfold addComment
    rw [h]

theorem addComment_appends_or_fails_witness :
    findHoot [post1] 1 = some post1 ∧
    addComment bob 1 "hi" 5 7 [post1] =
      (.ok { id := 5, author := some bob, text := "hi", createdAt := 7 },
       storeUpdate [post1] 1
         { post1 with comments :=
             post1.comments ++
               [{ id := 5, author := bob.id, text := "hi",
                  createdAt := 7 }] }) ∧
    findHoot ([] : List Hoot) 1 = none ∧
    addComment bob 1 "hi" 5 7 [] = (.error .serverError, []) :=
  ⟨rfl, (addComment_appends_or_fails bob 1 "hi" 5 7 [post1]).1 post1 rfl, rfl,
   (addComment_appends_or_fails bob 1 "hi" 5 7 []).2 rfl⟩

/-- C5 counterexample: AddComment on a missing parent post fails with the
generic serverError (the 500 catch-all fired by the null dereference), a
different error from NotFound. -/
theorem addComment_missing_not_notFound :
    (addComment bob 1 "hi" 5 7 []).1 = .error .serverError ∧
    (addComment bob 1 "hi" 5 7 []).1 ≠ .error .notFound :=
  ⟨rfl, fun h => by
    rw [show (addComment bob 1 "hi" 5 7 []).1 = Except.error Err.serverError
      from rfl] at h
    exact Err.noConfusion (Except.error.inj h)⟩

/-- Helper: `find?` by id returns the first match, skipping a prefix that
contains no match. -/
theorem find?_comment_first (cid : CommentId) (l1 : List Comment)
    (c : Comment) (l2 : List Comment) (hcid : c.id = cid)
    (h1 : ∀ x ∈ l1, x.id ≠ cid) :
    (l1 ++ c :: l2).find? (fun x => x.id = cid) = some c := by
  induction l1 with
  | nil => simp [List.find?_cons, hcid]
  | cons a l ih =>
    have ha : a.id ≠ cid := h1 a (List.mem_cons_self a l)
    rw [List.cons_append, List.find?_cons, decide_eq_false ha]
    exact ih (fun x hx => h1 x (List.mem_cons_of_mem a hx))

/-- Helper: overwriting the text of the first id match rewrites exactly the
targeted comment when the prefix contains no match. -/
theorem setCommentText_first (t : String) (cid : CommentId)
    (l1 : List Comment) (c : Comment) (l2 : List Comment)
    (hcid : c.id = cid) (h1 : ∀ x ∈ l1, x.id ≠ cid) :
    setCommentText (l1 ++ c :: l2) cid t =
      l1 ++ { c with text := t } :: l2 := by
  induction l1 with
  | nil => simp [setCommentText, hcid]
  | cons a l ih =>
    have ha : a.id ≠ cid := h1 a (List.mem_cons_self a l)
    simp only [List.cons_append, setCommentText]
    rw [if_neg ha]
    simp only [List.append_eq]
    rw [ih (fun x hx => h1 x (List.mem_cons_of_mem a hx))]

/-- Helper: filtering out one id removes exactly the one comment carrying it
when the rest of the sequence does not carry it. -/
theorem filter_removes_target (cid : CommentId) (l1 : List Comment)
    (c : Comment) (l2 : List Comment) (hcid : c.id = cid)
    (h1 : ∀ x ∈ l1, x.id ≠ cid) (h2 : ∀ x ∈ l2, x.id ≠ cid) :
    (l1 ++ c :: l2).filter (fun x => x.id ≠ cid) = l1 ++ l2 := by
  have e1 : l1.filter (fun x => x.id ≠ cid) = l1 :=
    List.filter_eq_self.mpr (fun a ha => by simpa using h1 a ha)
  have e2 : l2.filter (fun x => x.id ≠ cid) = l2 :=
    List.filter_eq_self.mpr (fun a ha => by simpa using h2 a ha)
  have hcfalse : decide (c.id ≠ cid) = false := by simp [hcid]
  rw [List.filter_append, e1, List.filter_cons, hcfalse,
    if_neg Bool.false_ne_true, e2]

/-- Helper: a map that fixes every element of a list is the identity. -/
theorem map_fixes_eq_self {α : Type} (f : α → α) (l : List α)
    (h : ∀ x ∈ l, f x = x) : l.map f = l := by
  induction l with
  | nil => rfl
  | cons a l ih =>
    rw [List.map_cons, h a (List.mem_cons_self a l),
      ih (fun x hx => h x (List.mem_cons_of_mem a hx))]

/-- C6: RemoveComment on a post whose sequence is `l1 ++ [c] ++ l2` with `c`
the only carrier of the target id removes exactly `c`: the stored sequence
becomes `l1 ++ l2`, the remaining comments in their previous relative
order, and the handler acknowledges success. -/
theorem removeComment_removes_exactly (hootId : HootId) (cid : CommentId)
    (db : List Hoot) (hoot : Hoot) (l1 l2 : List Comment) (c : Comment)
    (hfind : findHoot db hootId = some hoot)
    (hc : hoot.comments = l1 ++ c :: l2) (hcid : c.id = cid)
    (h1 : ∀ x ∈ l1, x.id ≠ cid) (h2 : ∀ x ∈ l2, x.id ≠ cid) :
    removeComment hootId cid db =
      (.ok "Ok",
       storeUpdate db hootId { hoot with comments := l1 ++ l2 }) := by
  simp only [removeComment, hfind]
  rw [hc, filter_removes_target cid l1 c l2 hcid h1 h2]

theorem removeComment_removes_exactly_witness :
    findHoot [post2] 2 = some post2 ∧
    post2.comments = [cmtA] ++ cmtB :: [cmtC] ∧
    removeComment 2 2 [post2] =
      (.ok "Ok",
       storeUpdate [post2] 2 { post2 with comments := [cmtA] ++ [cmtC] }) :=
  ⟨rfl, rfl,
   removeComment_removes_exactly 2 2 [post2] post2 [cmtA] [cmtC] cmtB rfl rfl
     rfl (by decide) (by decide)⟩

/-- C7: UpdateComment on a post whose sequence is `l1 ++ [c] ++ l2`, `c` the
first carrier of the target id, overwrites only `c`'s `text`: `c`'s id,
author and createdAt, every other comment, the sequence's order and length,
and all other fields of the parent post are unchanged. -/
theorem updateComment_updates_only_text (hootId : HootId) (cid : CommentId)
    (t : String) (db : List Hoot) (hoot : Hoot) (l1 l2 : List Comment)
    (c : Comment) (hfind : findHoot db hootId = some hoot)
    (hc : hoot.comments = l1 ++ c :: l2) (hcid : c.id = cid)
    (h1 : ∀ x ∈ l1, x.id ≠ cid) :
    updateComment hootId cid t db =
      (.ok "Ok",
       storeUpdate db hootId
         { hoot with comments := l1 ++ { c with text := t } :: l2 }) := by
  have hfc : hoot.comments.find? (fun x => x.id = cid) = some c := by
    rw [hc]
    exact find?_comment_first cid l1 c l2 hcid h1
  simp only [updateComment, hfind, hfc]
  rw [hc, setCommentText_first t cid l1 c l2 hcid h1]

theorem updateComment_updates_only_text_witness :
    findHoot [post2] 2 = some post2 ∧
    post2.comments = [cmtA] ++ cmtB :: [cmtC] ∧
    updateComment 2 2 "new" [post2] =
      (.ok "Ok",
       storeUpdate [post2] 2
         { post2 with
             comments := [cmtA] ++ { cmtB with text := "new" } :: [cmtC] }) :=
  ⟨rfl, rfl,
   updateComment_updates_only_text 2 2 "new" [post2] post2 [cmtA] [cmtC] cmtB
     rfl rfl rfl (by decide)⟩

/-- C8 counterexample: in both failure cases — the post missing, or the post
present but the comment id absent — UpdateComment fails with the generic
serverError (the 500 catch-all fired by the null dereference), not with
NotFound. -/
theorem updateComment_missing_not_notFound :
    (updateComment 9 1 "t" [post1]).1 = .error .serverError ∧
    (updateComment 9 1 "t" [post1]).1 ≠ .error .notFound ∧
    (updateComment 1 99 "t" [post1]).1 = .error .serverError ∧
    (updateComment 1 99 "t" [post1]).1 ≠ .error .notFound :=
  ⟨rfl, fun h => Err.noConfusion (Except.error.inj h), rfl,
   fun h => Err.noConfusion (Except.error.inj h)⟩

/-- C8 (amended): UpdateComment fails exactly when the post is missing or
its sequence carries no comment with the target id — though with the
generic serverError, not NotFound — and on failure the store is left
unchanged. -/
theorem updateComment_failure_cases (hootId : HootId) (cid : CommentId)
    (t : String) (db : List Hoot) :
    ((updateComment hootId cid t db).1 = .error .serverError ↔
      findHoot db hootId = none ∨
        ∃ hoot, findHoot db hootId = some hoot ∧
          hoot.comments.find? (fun c => c.id = cid) = none) ∧
    ((updateComment hootId cid t db).1 = .error .serverError →
      (updateComment hootId cid t db).2 = db) := by
  unfold updateComment
  cases hf : findHoot db hootId with
  | none => simp
  | some hoot =>
    cases hfc : hoot.comments.find? (fun c => c.id = cid) with
    | none =>
      simp [hfc]
      intro x hx
      simpa using List.find?_eq_none.mp hfc x hx
    | some c =>
      simp [hfc]
      exact ⟨c, List.mem_of_find?_eq_some hfc,
        by simpa using List.find?_some hfc⟩

theorem updateComment_failure_cases_witness :
    (updateComment 9 1 "t" []).1 = .error .serverError ∧
    (updateComment 9 1 "t" []).2 = [] :=
  ⟨((updateComment_failure_cases 9 1 "t" []).1).mpr (Or.inl rfl),
   (updateComment_failure_cases 9 1 "t" []).2
     (((updateComment_failure_cases 9 1 "t" []).1).mpr (Or.inl rfl))⟩

/-- C10: RemoveComment with a commentId absent from the existing post's
sequence still acknowledges success (200 Ok, not NotFound) and leaves the
store exactly unchanged: the pull matches nothing and the document written
back equals the stored one. -/
theorem removeComment_missing_comment_ok_noop (hootId : HootId)
    (cid : CommentId) (db : List Hoot) (hoot : Hoot)
    (hfind : findHoot db hootId = some hoot)
    (hnd : (db.map Hoot.id).Nodup)
    (hnone : ∀ x ∈ hoot.comments, x.id ≠ cid) :
    removeComment hootId cid db = (.ok "Ok", db) := by
  simp only [removeComment, hfind]
  have hfilter : hoot.comments.filter (fun x => x.id ≠ cid) = hoot.comments :=
    List.filter_eq_self.mpr (fun a ha => by simpa using hnone a ha)
  rw [hfilter]
  have heta : ({ hoot with comments := hoot.comments } : Hoot) = hoot := rfl
  rw [heta]
  have hmem : hoot ∈ db := List.mem_of_find?_eq_some hfind
  have hid : hoot.id = hootId := by simpa using List.find?_some hfind
  have hfix : ∀ x ∈ db, (if x.id = hootId then hoot else x) = x := by
    intro x hx
    by_cases hxid : x.id = hootId
    · have hxh : x = hoot :=
        List.inj_on_of_nodup_map hnd hx hmem (by rw [hxid, hid])
      simp [hxid, hxh]
    · simp [hxid]
  unfold storeUpdate
  rw [map_fixes_eq_self _ db hfix]

theorem removeComment_missing_comment_ok_noop_witness :
    findHoot [post2] 2 = some post2 ∧
    removeComment 2 99 [post2] = (.ok "Ok", [post2]) :=
  ⟨rfl,
   removeComment_missing_comment_ok_noop 2 99 [post2] post2 rfl (by decide)
     (by decide)⟩

def postOld : Hoot :=
  { id := 3, author := 10, title := "old", text := "o", createdAt := 1,
    comments := [] }

def postNew : Hoot :=
  { id := 4, author := 20, title := "new", text := "n", createdAt := 9,
    comments := [] }

end Hoots
